import Mathlib

/-!
A verification development for the A1 agent repository.

Each Python component relevant to the verified properties is given a
shallow embedding: pure functions become Lean functions, mutable objects
become explicit state passing, RPC / subprocess / DEX calls become oracle
parameters (`Option`-valued where the Python call can raise), and Python
`float` quantities that only ever hold exact small rationals (confidence
ratios) are modelled as `ℚ`.  Machine integers in the Python code are
unbounded (`int`), so they are modelled as `Int` directly.
-/

namespace A1

/-! ## Python string primitives

Computable (kernel-reducible) models of the Python `str` operations the
embedded code uses, over the character list of the string.  They are exact for
the ASCII data (hex strings, addresses, Solidity sources) the properties
quantify over. -/

/-- Python `s.lower()`. -/
def pyLower (s : String) : String :=
  (s.data.map Char.toLower).asString

/-- Python `s[n:]`. -/
def pyDrop (n : Nat) (s : String) : String :=
  (s.data.drop n).asString

/-- Python `s[:n]`. -/
def pyTake (n : Nat) (s : String) : String :=
  (s.data.take n).asString

/-- Python `s.startswith(pre)`. -/
def pyStartsWith (pre s : String) : Bool :=
  pre.data.isPrefixOf s.data

/-! ## Cache (`src/a1/tools/cache.py`)

The SQLite store is modelled as a partial map from keys to rows.  `time.time()`
is a real-valued clock, modelled as `ℚ`; `int(time.time())` used by `set` is
passed in as the integer `now`.  -/

namespace Cache

structure Entry (V : Type) where
  value : V
  created_at : Int
  ttl : Int
deriving DecidableEq, Repr

/-- The table `cache(key, value, created_at, ttl)` with `key` primary. -/
def Store (V : Type) := String → Option (Entry V)

/-- Models `Cache.set`: `ttl = ttl or settings.cache_ttl` (Python truthiness: both
`None` and `0` are replaced by the default), then `INSERT OR REPLACE` with
`created_at = int(time.time())` (the `now` argument). -/
def set {V : Type} (s : Store V) (key : String) (value : V) (now : Int)
    (ttl : Option Int) (defaultTtl : Int) : Store V :=
  let t : Int :=
    match ttl with
    | none => defaultTtl
    | some t => if t = 0 then defaultTtl else t
  fun k => if k = key then some ⟨value, now, t⟩ else s k

/-- Models `Cache.get`: look the key up; if `time.time() > created_at + ttl` the row is
deleted and `None` returned, otherwise the stored value is returned.  Returns
the value read together with the store after the call. -/
def get {V : Type} (s : Store V) (key : String) (now : ℚ) :
    Option V × Store V :=
  match s key with
  | none => (none, s)
  | some e =>
      if now > (e.created_at : ℚ) + (e.ttl : ℚ) then
        (none, fun k => if k = key then none else s k)
      else
        (some e.value, s)

/-- The empty store. -/
def empty (V : Type) : Store V := fun _ => none

end Cache

/-! ## Tool policy (`src/a1/controller/policy.py`)

`ToolResult` keeps the fields the policy manipulates (`summary`, `success`,
`error`); the dynamic `details` dict, `artifacts` and `cache_key` play no role
in the budget behaviour.  The underlying tools are an oracle
`run : String → Args → ToolResult` which already accounts for
`ToolPolicy.execute_tool`'s `try/except` (a raising tool becomes a failed
result, which is still one execution of the tool). -/

namespace Policy

structure ToolResult where
  summary : String
  success : Bool
  error : Option String
deriving DecidableEq, Repr

structure PolicyState where
  calls_this_turn : Nat
  total_calls : Nat
deriving DecidableEq, Repr

structure ToolPolicy (Args : Type) where
  tools : List String
  max_calls_per_turn : Nat
  run : String → Args → ToolResult

/-- Result for `if name not in self.tools`. -/
def unknownToolResult (name : String) : ToolResult :=
  { summary := "Unknown tool: " ++ name
    success := false
    error := some ("Tool \x27" ++ name ++ "\x27 not found") }

/-- Result for `if not self.can_call_tool()`. -/
def limitResult (maxCalls : Nat) : ToolResult :=
  { summary := "Tool call limit reached (" ++ toString maxCalls ++ " per turn)"
    success := false
    error := some "Call limit reached" }

/-- Models `ToolPolicy.can_call_tool`. -/
def can_call_tool {Args : Type} (p : ToolPolicy Args) (st : PolicyState) : Bool :=
  st.calls_this_turn < p.max_calls_per_turn

/-- Models `ToolPolicy.reset_turn`. -/
def reset_turn (st : PolicyState) : PolicyState :=
  { st with calls_this_turn := 0 }

/-- Models `ToolPolicy.execute_tool`.  The `Bool` component records whether the
underlying tool was invoked (`await tool.execute(**arguments)` reached). -/
def execute_tool {Args : Type} (p : ToolPolicy Args) (st : PolicyState)
    (name : String) (args : Args) : ToolResult × PolicyState × Bool :=
  if name ∈ p.tools then
    if can_call_tool p st then
      (p.run name args,
        { calls_this_turn := st.calls_this_turn + 1
          total_calls := st.total_calls + 1 }, true)
    else
      (limitResult p.max_calls_per_turn, st, false)
  else
    (unknownToolResult name, st, false)

/-- A sequence of `execute_tool` calls within one turn (as issued by
`AgentLoop._run_turn` between two `reset_turn`s), returning per-call results
with their invocation flags. -/
def runCalls {Args : Type} (p : ToolPolicy Args) :
    PolicyState → List (String × Args) → List (ToolResult × Bool) × PolicyState
  | st, [] => ([], st)
  | st, (name, args) :: rest =>
      let (r, st1, inv) := execute_tool p st name args
      let (rs, st2) := runCalls p st1 rest
      ((r, inv) :: rs, st2)

/-- Number of calls in a turn that actually invoked their underlying tool. -/
def invokedCount (rs : List (ToolResult × Bool)) : Nat :=
  rs.countP (fun r => r.2)

end Policy

/-! ## Profit oracle (`src/a1/tools/profit_oracle.py`)

`ProfitOracle.analyze` walks the `balance_changes` dict (insertion-ordered,
modelled as a list of key/change pairs).  The two DEX quote calls and the
`symbol()/decimals()` lookup are remote calls, modelled as oracle functions;
`none` stands for the Python call raising (`ValueError("No quote …")`, RPC
failure, …), which `analyze` catches.  The float fields
`net_profit_formatted`/`net_profit_usd` are presentation-only and are omitted;
`confidence` is an exact small rational and is modelled as `ℚ`. -/

namespace Profit

/-- A `balance_changes` dict value: either a bare delta or `{before, after}`
(absent dict keys default to `0`, as in `change.get("before", 0)`). -/
inductive Change where
  | delta (d : Int)
  | beforeAfter (before after : Int)
deriving DecidableEq, Repr

structure TokenDelta where
  address : String
  symbol : String
  decimals : Int
  before : Int
  after : Int
  delta : Int
  value_in_base : Int
deriving DecidableEq, Repr

structure ProfitReport where
  chain_id : Int
  block_number : Option Int
  base_token : String
  base_symbol : String
  token_deltas : List TokenDelta
  surplus_tokens : List TokenDelta
  deficit_tokens : List TokenDelta
  base_token_delta : Int
  surplus_value : Int
  deficit_cost : Int
  raw_profit : Int
  gross_profit : Int
  net_profit : Int
  is_profitable : Bool
  all_balances_preserved : Bool
  confidence : ℚ
deriving DecidableEq, Repr

/-- The oracle's remote collaborators. -/
structure OracleEnv where
  /-- Models `ProfitOracle._get_token_info` (symbol, decimals); its internal failures
  already default to the address abbreviation and 18, so it is total. -/
  tokenInfo : String → String × Int
  /-- Models `DexAggregator.get_quote tokenIn tokenOut amountIn`, returning
  `quote.amount_out`; `none` = the call raised. -/
  getQuote : String → String → Int → Option Int
  /-- Models `DexAggregator.get_quote_exact_out tokenIn tokenOut amountOut`, returning
  `quote.amount_in`; `none` = the call raised. -/
  getQuoteExactOut : String → String → Int → Option Int

structure OracleConfig where
  chain_id : Int
  base_token : String
  base_symbol : String

/-- Models `(before, after, delta)` from a dict entry value. -/
def parseChange : Change → Int × Int × Int
  | .delta d => (0, d, d)
  | .beforeAfter b a => (b, a, a - b)

/-- The `value_in_base` computation for one token, paired with whether a quote
failure was counted into `prices_unavailable`. -/
def valueInBase (env : OracleEnv) (cfg : OracleConfig) (token : String)
    (delta : Int) : Int × Bool :=
  if delta ≠ 0 ∧ pyLower token ≠ pyLower cfg.base_token then
    if delta > 0 then
      match env.getQuote token cfg.base_token delta with
      | some amountOut => (amountOut, false)
      | none => (0, true)
    else
      match env.getQuoteExactOut cfg.base_token token |delta| with
      | some amountIn => (-amountIn, false)
      | none => (-(2 ^ 128), true)
  else if pyLower token = pyLower cfg.base_token then
    (delta, false)
  else
    (0, false)

/-- The `TokenDelta` record built for one dict entry. -/
def mkTokenDelta (env : OracleEnv) (cfg : OracleConfig)
    (entry : String × Change) : TokenDelta :=
  let (token, change) := entry
  let (b, a, d) := parseChange change
  let (symbol, decimals) := env.tokenInfo token
  ⟨token, symbol, decimals, b, a, d, (valueInBase env cfg token d).1⟩

/-- Whether one dict entry increments `prices_unavailable`. -/
def entryUnpriced (env : OracleEnv) (cfg : OracleConfig)
    (entry : String × Change) : Bool :=
  (valueInBase env cfg entry.1 (parseChange entry.2).2.2).2

/-- The loop body of `ProfitOracle.analyze`: appends the token delta, then
classifies it (base token assignment / surplus / deficit). -/
def analyzeStep (env : OracleEnv) (cfg : OracleConfig)
    (acc : ProfitReport × Nat) (entry : String × Change) : ProfitReport × Nat :=
  let (r, unpriced) := acc
  let td := mkTokenDelta env cfg entry
  let r := { r with token_deltas := r.token_deltas ++ [td] }
  let r :=
    if pyLower entry.1 = pyLower cfg.base_token then
      { r with base_token_delta := td.delta }
    else if td.delta > 0 then
      { r with surplus_tokens := r.surplus_tokens ++ [td],
               surplus_value := r.surplus_value + td.value_in_base }
    else if td.delta < 0 then
      { r with deficit_tokens := r.deficit_tokens ++ [td],
               deficit_cost := r.deficit_cost + |td.value_in_base|,
               all_balances_preserved := false }
    else r
  (r, unpriced + (if entryUnpriced env cfg entry then 1 else 0))

/-- The report as initialised at the top of `analyze` (dataclass defaults). -/
def initReport (cfg : OracleConfig) (block_number : Option Int) : ProfitReport :=
  { chain_id := cfg.chain_id
    block_number := block_number
    base_token := cfg.base_token
    base_symbol := cfg.base_symbol
    token_deltas := []
    surplus_tokens := []
    deficit_tokens := []
    base_token_delta := 0
    surplus_value := 0
    deficit_cost := 0
    raw_profit := 0
    gross_profit := 0
    net_profit := 0
    is_profitable := false
    all_balances_preserved := true
    confidence := 1 }

/-- Models `ProfitOracle.analyze`. -/
def analyze (env : OracleEnv) (cfg : OracleConfig)
    (balance_changes : List (String × Change)) (block_number : Option Int) :
    ProfitReport :=
  let (r, unpriced) :=
    balance_changes.foldl (analyzeStep env cfg) (initReport cfg block_number, 0)
  let raw := r.base_token_delta
  let gross := r.base_token_delta + r.surplus_value
  let net := gross - r.deficit_cost
  let r := { r with raw_profit := raw, gross_profit := gross, net_profit := net,
                    is_profitable := net > 0 }
  let total := balance_changes.length
  if total > 0 then
    { r with confidence := ((total : ℚ) - (unpriced : ℚ)) / (total : ℚ) }
  else r

/-- Models `prices_unavailable` as a count over the input. -/
def unpricedCount (env : OracleEnv) (cfg : OracleConfig)
    (balance_changes : List (String × Change)) : Nat :=
  balance_changes.countP (entryUnpriced env cfg)

end Profit

/-! ## Proxy resolver (`src/a1/tools/proxy_resolver.py`)

The chain reads (`eth_getStorageAt`, `eth_getCode`, `eth_call`) and
`w3.to_checksum_address` become oracle functions; `none` stands for the Python
call raising.  `to_checksum_address` raises exactly on malformed addresses,
which the code catches at different points — including after it has already
mutated `info.proxy_type` — so the mutation order of `ProxyInfo` is modelled
explicitly. -/

namespace Resolver

inductive ProxyType where
  | NONE
  | EIP1967_TRANSPARENT
  | EIP1967_BEACON
  | EIP1167_MINIMAL
  | UUPS
  | CUSTOM_SLOT
  | UNKNOWN
deriving DecidableEq, Repr

structure ProxyInfo where
  address : String
  proxy_type : ProxyType
  implementation_address : Option String
  beacon_address : Option String
  admin_address : Option String
  nested_implementations : List String
  detection_method : String
  confidence : ℚ
deriving DecidableEq, Repr

structure ResolverEnv where
  /-- Models `RPCClient.eth_get_storage_at address slot`; `none` = raised. -/
  storage : String → String → Option String
  /-- Models `RPCClient.eth_get_code address`; `none` = raised. -/
  getCode : String → Option String
  /-- Models `RPCClient.eth_call to data`; `none` = raised. -/
  ethCall : String → String → Option String
  /-- Models `w3.to_checksum_address`; `none` = raised (malformed address). -/
  checksum : String → Option String

def EIP1967_IMPL_SLOT : String :=
  "0x360894a13ba1a3210667c828492db98dca3e2076cc3735a920a3ca505d382bbc"

def EIP1967_BEACON_SLOT : String :=
  "0xa3f0ad74e5423aebfd80d3ef4346578335a9a72aeaee59ff6cb3582b35133d50"

def EIP1967_ADMIN_SLOT : String :=
  "0xb53127684a568b3173ae13b9f8a6016e243e63b6e8ee1178d6a717850b5d6103"

def eip1167Pre : String := "363d3d373d3d3d363d73"

def CUSTOM_IMPL_SLOTS : List String :=
  ["0x7050c9e0f4ca769c69bd3a8ef740bc37934f8e2c036e5a723fd8ee048ed3f8c3",
   "0xc5f16f0fcc639fa48a6947836d9850f504798523bf8c9a3a87d5876cf622bcf7"]

def implSelectors : List (String × String) :=
  [("implementation()", "5c60da1b"),
   ("getImplementation()", "aaf10f42"),
   ("masterCopy()", "a619486e"),
   ("childImplementation()", "1e52b518")]

def zeroAddress : String := "0x0000000000000000000000000000000000000000"

/-- Python `s[-n:]`. -/
def lastChars (n : Nat) (s : String) : String :=
  (s.data.drop (s.length - n)).asString

/-- Models `ProxyInfo(address=..., proxy_type=ProxyType.NONE)` with dataclass
defaults. -/
def noneInfo (address : String) : ProxyInfo :=
  { address := address
    proxy_type := .NONE
    implementation_address := none
    beacon_address := none
    admin_address := none
    nested_implementations := []
    detection_method := ""
    confidence := 1 }

/-- Models `ProxyResolver._read_storage_slot`: read the slot, require a nonempty
hex word of at least 66 chars, checksum its last 40 hex chars.  Every raise
(RPC or checksum) is caught and yields `None`. -/
def read_storage_slot (env : ResolverEnv) (address slot : String) :
    Option String :=
  match env.storage address slot with
  | none => none
  | some result =>
      if result ≠ "" ∧ result ≠ "0x" ∧ 66 ≤ result.length then
        env.checksum ("0x" ++ lastChars 40 result)
      else none

/-- Models `ProxyResolver._get_beacon_implementation`. -/
def get_beacon_implementation (env : ResolverEnv) (beacon_address : String) :
    Option String :=
  match env.ethCall beacon_address "0x5c60da1b" with
  | none => none
  | some result =>
      if result ≠ "" ∧ result ≠ "0x" ∧ 66 ≤ result.length then
        let impl_addr := "0x" ++ lastChars 40 result
        if impl_addr ≠ zeroAddress then env.checksum impl_addr else none
      else none

/-- Models `ProxyResolver._try_eip1967`: implementation slot first (also reading the
admin slot on success), then the beacon slot. -/
def try_eip1967 (env : ResolverEnv) (address : String) : ProxyInfo :=
  let beaconBranch :=
    match read_storage_slot env address EIP1967_BEACON_SLOT with
    | some beacon =>
        if beacon ≠ "" ∧ beacon ≠ zeroAddress then
          { noneInfo address with
              proxy_type := .EIP1967_BEACON
              beacon_address := some beacon
              detection_method := "EIP-1967 beacon slot"
              implementation_address := get_beacon_implementation env beacon }
        else noneInfo address
    | none => noneInfo address
  match read_storage_slot env address EIP1967_IMPL_SLOT with
  | some impl =>
      if impl ≠ "" ∧ impl ≠ zeroAddress then
        { noneInfo address with
            proxy_type := .EIP1967_TRANSPARENT
            implementation_address := some impl
            detection_method := "EIP-1967 implementation slot"
            admin_address :=
              match read_storage_slot env address EIP1967_ADMIN_SLOT with
              | some admin =>
                  if admin ≠ "" ∧ admin ≠ zeroAddress then some admin else none
              | none => none }
      else beaconBranch
  | none => beaconBranch

/-- Models `ProxyResolver._try_eip1167`.  If `to_checksum_address` raises after
`info.proxy_type` has been assigned, the `except` clause returns the
half-mutated record. -/
def try_eip1167 (env : ResolverEnv) (address : String) : ProxyInfo :=
  match env.getCode address with
  | none => noneInfo address
  | some code0 =>
      if code0 = "" ∨ code0 = "0x" then noneInfo address
      else
        let code := pyLower (pyDrop 2 code0)
        if pyStartsWith eip1167Pre code then
          if 60 ≤ code.length then
            let impl_addr := "0x" ++ pyTake 40 (pyDrop 20 code)
            if impl_addr.length = 42 then
              match env.checksum impl_addr with
              | some a =>
                  { noneInfo address with
                      proxy_type := .EIP1167_MINIMAL
                      implementation_address := some a
                      detection_method := "EIP-1167 bytecode pattern" }
              | none => { noneInfo address with proxy_type := .EIP1167_MINIMAL }
            else noneInfo address
          else noneInfo address
        else noneInfo address

/-- Loop body of `ProxyResolver._try_custom_slots`. -/
def customSlotsGo (env : ResolverEnv) (address : String) :
    List String → ProxyInfo
  | [] => noneInfo address
  | slot :: rest =>
      match read_storage_slot env address slot with
      | some impl =>
          if impl ≠ "" ∧ impl ≠ zeroAddress then
            { noneInfo address with
                proxy_type := .CUSTOM_SLOT
                implementation_address := some impl
                detection_method := "Custom storage slot: " ++ pyTake 18 slot ++ "..."
                confidence := (8 : ℚ) / 10 }
          else customSlotsGo env address rest
      | none => customSlotsGo env address rest

/-- Models `ProxyResolver._try_custom_slots`. -/
def try_custom_slots (env : ResolverEnv) (address : String) : ProxyInfo :=
  customSlotsGo env address CUSTOM_IMPL_SLOTS

/-- Loop body of `ProxyResolver._try_implementation_function`, threading the
mutable `info` (its `proxy_type` can survive a caught checksum raise). -/
def implFnGo (env : ResolverEnv) (address : String) :
    ProxyInfo → List (String × String) → ProxyInfo
  | info, [] => info
  | info, (func_name, selector) :: rest =>
      match env.ethCall address ("0x" ++ selector) with
      | none => implFnGo env address info rest
      | some result =>
          if result ≠ "" ∧ result ≠ "0x" ∧ 66 ≤ result.length then
            let impl_addr := "0x" ++ lastChars 40 result
            if impl_addr ≠ zeroAddress then
              match env.getCode impl_addr with
              | none => implFnGo env address info rest
              | some code =>
                  if code ≠ "" ∧ code ≠ "0x" then
                    let info := { info with proxy_type := .UUPS }
                    match env.checksum impl_addr with
                    | some a =>
                        { info with
                            implementation_address := some a
                            detection_method := "Function call: " ++ func_name }
                    | none => implFnGo env address info rest
                  else implFnGo env address info rest
            else implFnGo env address info rest
          else implFnGo env address info rest

/-- Models `ProxyResolver._try_implementation_function`. -/
def try_implementation_function (env : ResolverEnv) (address : String) :
    ProxyInfo :=
  implFnGo env address (noneInfo address) implSelectors

/-- The detection cascade of `ProxyResolver.resolve` (its "try different
detection methods in order" block): each step runs only if all previous steps
returned `NONE`. -/
def detect (env : ResolverEnv) (addr : String) : ProxyInfo :=
  let i1 := try_eip1967 env addr
  let i2 := if i1.proxy_type = .NONE then try_eip1167 env addr else i1
  let i3 := if i2.proxy_type = .NONE then try_custom_slots env addr else i2
  if i3.proxy_type = .NONE then try_implementation_function env addr else i3

/-- Models `ProxyResolver.resolve`: checksum the input (a raise propagates, hence
`Option`), run the detection cascade, then — when nesting is requested, an
implementation was found and `max_depth > 0` — recurse on the implementation
with `max_depth - 1`.  The two depth cases specialise the single Python body
at `max_depth = 0` (guard false, no recursion) and `max_depth = d + 1`. -/
def resolve (env : ResolverEnv) : Nat → String → Bool → Option ProxyInfo
  | 0, address, _ =>
      (match env.checksum address with
       | none => none
       | some addr => some (detect env addr))
  | d + 1, address, resolve_nested =>
      (match env.checksum address with
       | none => none
       | some addr =>
          let info := detect env addr
          match info.implementation_address with
          | some impl =>
              if resolve_nested ∧ impl ≠ "" then
                match resolve env d impl true with
                | none => none
                | some nested_info =>
                    if nested_info.proxy_type ≠ .NONE then
                      let info :=
                        { info with nested_implementations :=
                            info.nested_implementations ++ [impl] }
                      let info :=
                        match nested_info.implementation_address with
                        | some ni =>
                            if ni ≠ "" then
                              { info with
                                  nested_implementations :=
                                    info.nested_implementations ++
                                      nested_info.nested_implementations
                                  implementation_address := some ni }
                            else info
                        | none => info
                      some info
                    else some info
              else some info
          | none => some info)

/-- Models `resolve` with the Python defaults (`resolve_nested=True, max_depth=5`),
as called by `ProxyResolver.execute`. -/
def resolveDefault (env : ResolverEnv) (address : String) : Option ProxyInfo :=
  resolve env 5 address true

end Resolver

/-! ## Strategy parser (`src/a1/controller/parser.py`)

`StrategyParser.parse` drives two regexes whose exact Python (`re`) matching
semantics are embedded here over `List Char`:

* ``SOLIDITY_BLOCK_PATTERN = ```(?:solidity|sol)?\s*\n(.*?)``` `` with
  `DOTALL | IGNORECASE` — `findall` of the lazy capture groups;
* `CONTRACT_PATTERN = contract\s+(\w+)\s+(?:is\s+[\w\s,]+\s*)?\{` — `findall`
  of the contract names.

The embeddings reproduce the engine behaviour: left-to-right non-overlapping
scan, ordered alternation with backtracking, greedy `\s*`/`\s+`/`\w+`/class
runs.  `\s` and `\w` are modelled over their ASCII ranges (the only characters
exercised by Solidity sources). -/

namespace Parser

def backtick : Char := Char.ofNat 96

def isPySpace (c : Char) : Bool :=
  c = ' ' || c = '\t' || c = '\n' || c = '\x0b' || c = '\x0c' || c = '\r'

def isWordChar (c : Char) : Bool :=
  c.isAlphanum || c = '_'

/-- Models `[\w\s,]`. -/
def isClassChar (c : Char) : Bool :=
  isWordChar c || isPySpace c || c = ','

/-- Match a literal (case-sensitive), returning the rest. -/
def dropLit : List Char → List Char → Option (List Char)
  | [], s => some s
  | _ :: _, [] => none
  | p :: ps, c :: cs => if c = p then dropLit ps cs else none

/-- Match a literal case-insensitively, returning the rest. -/
def dropCI : List Char → List Char → Option (List Char)
  | [], s => some s
  | _ :: _, [] => none
  | p :: ps, c :: cs => if c.toLower = p.toLower then dropCI ps cs else none

/-- Match `` ``` ``. -/
def matchTicks : List Char → Option (List Char)
  | c1 :: c2 :: c3 :: rest =>
      if c1 = backtick ∧ c2 = backtick ∧ c3 = backtick then some rest else none
  | _ => none

/-- Match `\s*\n` greedily: consume whitespace up to and including the *last*
newline of the maximal whitespace run (the backtracking behaviour of a greedy
`\s*` followed by `\n`). -/
def wsNl : List Char → Option (List Char)
  | [] => none
  | c :: rest =>
      if c = '\n' then some ((wsNl rest).getD rest)
      else if isPySpace c then wsNl rest
      else none

/-- Match `(.*?)``` ` (lazy body up to the first closing fence), returning the
captured body and the text after the fence. -/
def bodyTicks : List Char → Option (List Char × List Char)
  | [] => none
  | c :: rest =>
      match matchTicks (c :: rest) with
      | some after => some ([], after)
      | none =>
          match bodyTicks rest with
          | some (b, a) => some (c :: b, a)
          | none => none

/-- One alternation branch of the fence opener: the tag, then `\s*\n`, then
the lazy body. -/
def tryTag (tag : String) (afterTicks : List Char) :
    Option (List Char × List Char) :=
  match dropCI tag.data afterTicks with
  | none => none
  | some afterTag =>
      match wsNl afterTag with
      | none => none
      | some afterNl => bodyTicks afterNl

/-- Try to match the whole block pattern at this position; alternation order
`solidity`, `sol`, empty, as in `(?:solidity|sol)?`. -/
def tryBlockAt (s : List Char) : Option (List Char × List Char) :=
  match matchTicks s with
  | none => none
  | some a =>
      match tryTag "solidity" a with
      | some r => some r
      | none =>
          match tryTag "sol" a with
          | some r => some r
          | none => tryTag "" a

/-- Models `findall` scan: try at each position, resume after a match.  Fuel bounds
the scan; each step consumes at least one character, so `s.length` suffices. -/
def scanBlocks : Nat → List Char → List String
  | 0, _ => []
  | _ + 1, [] => []
  | fuel + 1, c :: rest =>
      match tryBlockAt (c :: rest) with
      | some (body, after) => body.asString :: scanBlocks fuel after
      | none => scanBlocks fuel rest

/-- Models `SOLIDITY_BLOCK_PATTERN.findall(response)`. -/
def findBlocks (response : String) : List String :=
  scanBlocks response.length response.data

/-- Python `str.strip()` (whitespace from both ends). -/
def pyStrip (s : String) : String :=
  (((s.data.dropWhile isPySpace).reverse.dropWhile isPySpace).reverse).asString

/-- Python `max(x :: xs, key=len)`: the *first* element of maximal length. -/
def pyMax (x : String) (xs : List String) : String :=
  xs.foldl (fun m y => if y.length > m.length then y else m) x

/-- Lines 47–54 of `StrategyParser.parse`: extract the fenced blocks, return
`None` when there are none, else the stripped `max(matches, key=len)`. -/
def selectCode (response : String) : Option String :=
  match findBlocks response with
  | [] => none
  | x :: xs => some (pyStrip (pyMax x xs))

/-- Try to match `CONTRACT_PATTERN` at this position, returning the captured
name and the rest after the opening brace.  The optional `is`-clause is tried
before being skipped (greedy `?`); `\s+`/`\w+` runs are maximal because the
neighbouring character classes are disjoint, and the `[\w\s,]+\s*` run before
`\{` collapses to the maximal class run followed immediately by `{`. -/
def matchContractAt (s : List Char) : Option (List Char × List Char) :=
  match dropLit "contract".data s with
  | none => none
  | some r0 =>
      if (r0.takeWhile isPySpace).isEmpty then none
      else
        let r1 := r0.dropWhile isPySpace
        let name := r1.takeWhile isWordChar
        if name.isEmpty then none
        else
          let r2 := r1.dropWhile isWordChar
          if (r2.takeWhile isPySpace).isEmpty then none
          else
            let t := r2.dropWhile isPySpace
            let noGroup : Option (List Char × List Char) :=
              match t with
              | '\x7b' :: rest => some (name, rest)
              | _ => none
            match dropLit "is".data t with
            | some u =>
                let headSpace :=
                  match u.head? with
                  | some c => isPySpace c
                  | none => false
                if headSpace &&
                    decide (2 ≤ (u.takeWhile isClassChar).length) &&
                    decide ((u.dropWhile isClassChar).head? = some '\x7b') then
                  some (name, (u.dropWhile isClassChar).tail)
                else noGroup
            | none => noGroup

/-- Models `findall` scan for `CONTRACT_PATTERN`. -/
def scanContracts : Nat → List Char → List String
  | 0, _ => []
  | _ + 1, [] => []
  | fuel + 1, c :: rest =>
      match matchContractAt (c :: rest) with
      | some (name, after) => name.asString :: scanContracts fuel after
      | none => scanContracts fuel rest

/-- Models `CONTRACT_PATTERN.findall(code)`. -/
def findContracts (code : String) : List String :=
  scanContracts code.length code.data

/-- Lines 57–65 of `StrategyParser.parse`: prefer the first contract whose
lowercased name is `strategy`; then, whenever some contract matched and the
chosen name is (still) exactly `"Strategy"`, overwrite it with the last
match. -/
def selectContractName (code : String) : String :=
  let contract_matches := findContracts code
  let contract_name :=
    match contract_matches.find? (fun n => pyLower n == "strategy") with
    | some n => n
    | none => "Strategy"
  match contract_matches.getLast? with
  | some lastName => if contract_name = "Strategy" then lastName else contract_name
  | none => contract_name

end Parser

/-! ## Fork executor (`src/a1/tools/concrete_execution.py`)

`ConcreteExecution.execute` / `_run_forge`, modelled up to the child-process
boundary: the presence of the `forge-std` harness library and the outcome of
spawning/awaiting the forge child are an environment; `_parse_result` (reached
only when the child completes) is passed as a function parameter since the
verified failure modes are decided before it runs. -/

namespace Exec

/-- Outcome of `create_subprocess_exec` + `wait_for(process.communicate())`. -/
inductive SpawnOutcome where
  /-- The forge binary is missing: `create_subprocess_exec` raises
  `FileNotFoundError` whose `str` is `oserr`. -/
  | binMissing (oserr : String)
  /-- Models `wait_for` raises `asyncio.TimeoutError`; the child is killed and the
  error re-raised. -/
  | timeout
  /-- The child completed with `returncode` (`None` modelled via `Option`)
  and captured output. -/
  | completed (returncode : Option Int) (stdout stderr : String)
deriving DecidableEq, Repr

structure ExecEnv where
  /-- Whether `harness/lib/forge-std` exists. -/
  libExists : Bool
  spawn : SpawnOutcome
  /-- Models `settings.execution_timeout`. -/
  timeoutSecs : Int

/-- What escapes `_run_forge`. -/
inductive RunError where
  /-- Models `asyncio.TimeoutError` re-raised after `process.kill()`. -/
  | timeoutKilled
  /-- Any other exception, carrying `str(e)`. -/
  | exc (msg : String)
deriving DecidableEq, Repr

def libMissingResult : Policy.ToolResult :=
  { summary := "forge-std not found. Run \x27forge install\x27 in harness directory."
    success := false
    error := some "forge-std not found" }

/-- Models `ConcreteExecution._run_forge` (workspace materialisation elided: it only
fails through the modelled outcomes). -/
def run_forge (env : ExecEnv)
    (parse_result : Int → String → String → Policy.ToolResult) :
    Except RunError Policy.ToolResult :=
  if env.libExists = false then .ok libMissingResult
  else
    match env.spawn with
    | .binMissing msg => .error (.exc msg)
    | .timeout => .error .timeoutKilled
    | .completed rc stdout stderr =>
        .ok (parse_result (rc.getD 0) stdout stderr)

/-- Models `ConcreteExecution.execute`: the `try/except` around `_run_forge`. -/
def execute (env : ExecEnv)
    (parse_result : Int → String → String → Policy.ToolResult) :
    Policy.ToolResult :=
  match run_forge env parse_result with
  | .ok r => r
  | .error .timeoutKilled =>
      { summary := "Execution timed out after " ++ toString env.timeoutSecs ++
          " seconds"
        success := false
        error := some "Timeout" }
  | .error (.exc msg) =>
      { summary := "Execution failed: " ++ msg
        success := false
        error := some msg }

end Exec

/-! ## Constructor-argument heuristic decoder
(`src/a1/tools/constructor_extractor.py`)

`_decode_heuristic` / `_identify_chunk` over the hex blob.
`w3.to_checksum_address` is an oracle (it raises exactly on malformed
addresses); `int(chunk, 16)` is modelled as succeeding on nonempty all-hex
strings (the sign/underscore/whitespace forms Python would additionally accept
cannot occur inside a hex blob, which is what the verified property quantifies
over). -/

namespace Ctor

inductive ParamValue where
  | int (n : Int)
  | bool (b : Bool)
  | str (s : String)
deriving DecidableEq, Repr

structure ConstructorParam where
  name : String
  type : String
  value : ParamValue
  raw_value : String
deriving DecidableEq, Repr

structure HeuristicInfo where
  constructor_args_raw : String
  parameters : List ConstructorParam
  decode_success : Bool
deriving DecidableEq, Repr

def isHexDigit (c : Char) : Bool :=
  ('0' ≤ c && c ≤ '9') || ('a' ≤ c && c ≤ 'f') || ('A' ≤ c && c ≤ 'F')

def hexDigitVal (c : Char) : Nat :=
  if '0' ≤ c && c ≤ '9' then c.toNat - 48
  else if 'a' ≤ c && c ≤ 'f' then c.toNat - 87
  else if 'A' ≤ c && c ≤ 'F' then c.toNat - 55
  else 0

def hexValue (s : List Char) : Nat :=
  s.foldl (fun acc c => 16 * acc + hexDigitVal c) 0

/-- Models `int(s, 16)` on a chunk of a hex blob. -/
def pyIntHex (s : List Char) : Option Nat :=
  if s ≠ [] ∧ s.all isHexDigit then some (hexValue s) else none

/-- Valid input for `w3.to_checksum_address`: `0x` + 40 hex digits. -/
def isValidAddrHex (s : String) : Bool :=
  pyStartsWith "0x" s && decide (s.length = 42) && (s.data.drop 2).all isHexDigit

def zeros (n : Nat) : List Char := List.replicate n '0'

/-- Models `ConstructorExtractor._identify_chunk` on one (padded) 64-hex-char word. -/
def identify_chunk (csum : String → Option String) (chunk : List Char)
    (index : Nat) : ConstructorParam :=
  let raw_value := "0x" ++ chunk.asString
  let addrCase : Option ConstructorParam :=
    if chunk.take 24 = zeros 24 then
      let potential_addr := "0x" ++ (chunk.drop 24).asString
      if potential_addr ≠ "0x" ++ (zeros 40).asString then
        match csum potential_addr with
        | some addr =>
            some { name := "address_" ++ toString index
                   type := "address"
                   value := .str addr
                   raw_value := raw_value }
        | none => none
      else none
    else none
  match addrCase with
  | some p => p
  | none =>
      match pyIntHex chunk with
      | some v =>
          if v = 0 then
            { name := "value_" ++ toString index, type := "uint256",
              value := .int 0, raw_value := raw_value }
          else if v = 1 then
            { name := "bool_" ++ toString index, type := "bool",
              value := .bool true, raw_value := raw_value }
          else if v < 256 then
            { name := "uint8_" ++ toString index, type := "uint8",
              value := .int v, raw_value := raw_value }
          else if v < 10001 then
            { name := "bps_" ++ toString index, type := "uint256",
              value := .int v, raw_value := raw_value }
          else
            { name := "uint256_" ++ toString index, type := "uint256",
              value := .int v, raw_value := raw_value }
      | none =>
          { name := "bytes32_" ++ toString index, type := "bytes32",
            value := .str raw_value, raw_value := raw_value }

/-- The specification's classification cascade for one 32-byte word, applied
in the stated order (first matching rule wins): 24 leading zero hex digits
with a nonzero tail ⇒ `address`; value 0 ⇒ `uint256`; value 1 ⇒ `bool`;
value < 256 ⇒ `uint8`; value < 10001 ⇒ `uint256`; else `uint256`.  Defined
from the specification's words, to be compared with `identify_chunk`. -/
def claimClassifyType (chunk : List Char) : String :=
  if chunk.take 24 = zeros 24 ∧ chunk.drop 24 ≠ zeros 40 then "address"
  else if hexValue chunk = 0 then "uint256"
  else if hexValue chunk = 1 then "bool"
  else if hexValue chunk < 256 then "uint8"
  else if hexValue chunk < 10001 then "uint256"
  else "uint256"

/-- Models `args[i : i + 64]` slices (fuel-bounded; `s.length` suffices since every
step consumes at least one character). -/
def chunksAux : Nat → List Char → List (List Char)
  | 0, _ => []
  | _ + 1, [] => []
  | fuel + 1, s@(_ :: _) => s.take 64 :: chunksAux fuel (s.drop 64)

def chunksOf64 (s : List Char) : List (List Char) :=
  chunksAux s.length s

/-- Models `chunk.ljust(64, "0")`. -/
def pad64 (c : List Char) : List Char :=
  if c.length < 64 then c ++ zeros (64 - c.length) else c

/-- The `args` local of `_decode_heuristic`: the blob with a `0x` prefix
stripped. -/
def stripArgs (info : HeuristicInfo) : String :=
  if pyStartsWith "0x" info.constructor_args_raw then
    pyDrop 2 info.constructor_args_raw
  else info.constructor_args_raw

/-- Models `ConstructorExtractor._decode_heuristic`. -/
def decode_heuristic (csum : String → Option String) (info : HeuristicInfo) :
    HeuristicInfo :=
  if info.constructor_args_raw = "" then info
  else
    let args := stripArgs info
    let chunks := chunksOf64 args.data
    let params := info.parameters ++
      chunks.mapIdx (fun i c => identify_chunk csum (pad64 c) i)
    { info with parameters := params, decode_success := params.length > 0 }

end Ctor

/-! ## Concrete instances used by witnesses and counterexamples -/

namespace Wit

/-- A one-tool policy with a per-turn budget of 1. -/
def policy1 : Policy.ToolPolicy Unit :=
  { tools := ["t"]
    max_calls_per_turn := 1
    run := fun _ _ => { summary := "ok", success := true, error := none } }

/-- Two calls to the registered tool within one turn. -/
def calls2 : List (String × Unit) := [("t", ()), ("t", ())]

/-- A profit-oracle environment in which every DEX quote fails. -/
def profitEnvNoQuote : Profit.OracleEnv :=
  { tokenInfo := fun t => (t, 18)
    getQuote := fun _ _ _ => none
    getQuoteExactOut := fun _ _ _ => none }

def profitCfg : Profit.OracleConfig :=
  { chain_id := 1, base_token := "0xBASE", base_symbol := "WETH" }

/-- One surplus token and one deficit token, both unquotable. -/
def profitChangesW : List (String × Profit.Change) :=
  [("0xs", .delta 3), ("0xd", .delta (-4))]

/-- A single entry: the base token itself decreases by 5. -/
def profitChangesBaseNeg : List (String × Profit.Change) :=
  [("0xBASE", .delta (-5))]

/-- A response with two `solidity` blocks whose captures tie in length. -/
def tieResponse : String :=
  "```solidity\nAAA\n```\nx\n```solidity\nBBB\n```"

/-- A response with a single `solidity` block. -/
def simpleResponse : String := "```solidity\ncode\n```"

/-- A code block that declares `Strategy` first and `Helper` last. -/
def strategyNotLastCode : String :=
  "contract Strategy is IStrategy \x7b\n\x7d\ncontract Helper \x7b\n\x7d"

/-- Proxy address used by the resolver scenarios. -/
def addrA : String := "0xa1"

/-- Implementation address read from the EIP-1967 slot of `addrA`. -/
def addrY : String := "0x00000000000000000000000000000000000000aa"

/-- Admin address read from the EIP-1967 admin slot of `addrA`. -/
def addrB : String := "0x00000000000000000000000000000000000000bb"

/-- Second-level implementation (what `addrY` itself points to). -/
def addrZ : String := "0x00000000000000000000000000000000000000cc"

def wordY : String :=
  "0x00000000000000000000000000000000000000000000000000000000000000aa"

def wordB : String :=
  "0x00000000000000000000000000000000000000000000000000000000000000bb"

def wordZ : String :=
  "0x00000000000000000000000000000000000000000000000000000000000000cc"

/-- Environment in which `addrA` is an EIP-1967 transparent proxy to `addrY`
with admin `addrB`, and `addrY` is itself a transparent proxy to `addrZ`
(which is not a proxy).  Checksumming is the identity. -/
def resolverEnvNested : Resolver.ResolverEnv :=
  { storage := fun a slot =>
      if a = addrA ∧ slot = Resolver.EIP1967_IMPL_SLOT then some wordY
      else if a = addrA ∧ slot = Resolver.EIP1967_ADMIN_SLOT then some wordB
      else if a = addrY ∧ slot = Resolver.EIP1967_IMPL_SLOT then some wordZ
      else none
    getCode := fun _ => none
    ethCall := fun _ _ => none
    checksum := fun s => some s }

/-- Environment in which `addrA` is an EIP-1967 transparent proxy to `addrY`
with admin `addrB`, and `addrY` is not a proxy. -/
def resolverEnvSingle : Resolver.ResolverEnv :=
  { storage := fun a slot =>
      if a = addrA ∧ slot = Resolver.EIP1967_IMPL_SLOT then some wordY
      else if a = addrA ∧ slot = Resolver.EIP1967_ADMIN_SLOT then some wordB
      else none
    getCode := fun _ => none
    ethCall := fun _ _ => none
    checksum := fun s => some s }

/-- Fork-executor environment: `forge-std` missing. -/
def execEnvNoLib : Exec.ExecEnv :=
  { libExists := false
    spawn := .completed none "" ""
    timeoutSecs := 120 }

/-- Fork-executor environment: the child hits the wall-clock timeout. -/
def execEnvTimeout : Exec.ExecEnv :=
  { libExists := true
    spawn := .timeout
    timeoutSecs := 120 }

/-- Fork-executor environment: the forge binary is missing. -/
def execEnvBinMissing : Exec.ExecEnv :=
  { libExists := true
    spawn := .binMissing "No such file or directory: \x27forge\x27"
    timeoutSecs := 120 }

/-- A `_parse_result` stand-in for paths that never reach it. -/
def parseStub : Int → String → String → Policy.ToolResult :=
  fun _ _ _ => { summary := "parsed", success := true, error := none }

/-- A checksum oracle that succeeds exactly on well-formed hex addresses. -/
def csumHex : String → Option String :=
  fun s => if Ctor.isValidAddrHex s then some s else none

/-- A two-word constructor blob: an address word then the value 1. -/
def ctorInfo : Ctor.HeuristicInfo :=
  { constructor_args_raw := "0x00000000000000000000000000000000000000000000000000000000000000ab0000000000000000000000000000000000000000000000000000000000000001"
    parameters := []
    decode_success := false }

/-- A word with 24 leading zeros and a nonzero tail. -/
def chunkAddr : List Char :=
  ("00000000000000000000000000000000000000000000000000000000000000ab").data

/-- The all-zero word. -/
def chunkZero : List Char :=
  ("0000000000000000000000000000000000000000000000000000000000000000").data

/-- A word containing a non-hex character. -/
def chunkBad : List Char :=
  ("000000000000000000000000000000000000000000000000000000000000000z").data

end Wit

end A1

/-! # Theorems -/

namespace A1

/-- Helper: the row written by `set` with a nonzero explicit ttl. -/
theorem Cache.set_self {V : Type} (s : Cache.Store V) (k : String) (v : V)
    (created ttl defaultTtl : Int) (h : ttl ≠ 0) :
    Cache.set s k v created (some ttl) defaultTtl k = some ⟨v, created, ttl⟩ := by
  simp [Cache.set, h]

/-- C3 counterexample: with `ttl = 1 > 0` and `createdAt = 0`, a `get`
performed exactly at time `createdAt + ttl = 1` still returns the value — the
claim says a `get` at or after `createdAt + ttl` returns absent.  The expiry
test in `Cache.get` is the strict `time.time() > created_at + ttl`. -/
theorem claim_C3_counterexample :
    ((0 : ℚ) + (1 : ℚ) ≤ (1 : ℚ)) ∧
    (Cache.get (Cache.set (Cache.empty Nat) "k" 7 0 (some 1) 86400) "k" 1).1 =
      some 7 := by
  constructor
  · norm_num
  · have hrow := Cache.set_self (Cache.empty Nat) "k" 7 0 1 86400 (by norm_num)
    simp [Cache.get, hrow]

/-- C3 (amended): after `set(k, v, ttl)` with `ttl > 0`, a `get` at any time
up to **and including** `createdAt + ttl` returns `v`; a `get` strictly after
`createdAt + ttl` returns absent and deletes the entry. -/
theorem claim_C3_amended {V : Type} (s : Cache.Store V) (k : String) (v : V)
    (created ttl defaultTtl : Int) (h : 0 < ttl) (now : ℚ) :
    (now ≤ (created : ℚ) + (ttl : ℚ) →
      (Cache.get (Cache.set s k v created (some ttl) defaultTtl) k now).1 =
        some v) ∧
    ((created : ℚ) + (ttl : ℚ) < now →
      (Cache.get (Cache.set s k v created (some ttl) defaultTtl) k now).1 =
        none ∧
      (Cache.get (Cache.set s k v created (some ttl) defaultTtl) k now).2 k =
        none) := by
  have hrow := Cache.set_self s k v created ttl defaultTtl h.ne.symm
  constructor
  · intro hle
    simp [Cache.get, hrow, not_lt.mpr hle]
  · intro hlt
    simp [Cache.get, hrow, hlt]

/-- Witness for the amended C3 at `ttl = 2`, `createdAt = 0`: a read at time
1 hits, a read at time 3 misses and deletes. -/
theorem claim_C3_witness :
    (Cache.get (Cache.set (Cache.empty Nat) "k" 5 0 (some 2) 86400) "k" 1).1 =
      some 5 ∧
    (Cache.get (Cache.set (Cache.empty Nat) "k" 5 0 (some 2) 86400) "k" 3).1 =
      none := by
  have h := fun now => claim_C3_amended (Cache.empty Nat) "k" 5 0 2 86400
    (by norm_num) now
  exact ⟨(h 1).1 (by norm_num), ((h 3).2 (by norm_num)).1⟩

/-- C10: `set(k, v, 0)` (like `set(k, v, None)`) stores the configured default
TTL instead of an immediately-expired entry — `ttl = ttl or settings.cache_ttl`
treats `0` as falsy — so a `get` before the default TTL elapses returns `v`. -/
theorem claim_C10 {V : Type} (s : Cache.Store V) (k : String) (v : V)
    (created defaultTtl : Int) (now : ℚ)
    (hnow : now ≤ (created : ℚ) + (defaultTtl : ℚ)) :
    Cache.set s k v created (some 0) defaultTtl k =
      some ⟨v, created, defaultTtl⟩ ∧
    Cache.set s k v created none defaultTtl k =
      some ⟨v, created, defaultTtl⟩ ∧
    (Cache.get (Cache.set s k v created (some 0) defaultTtl) k now).1 =
      some v := by
  have hrow : Cache.set s k v created (some 0) defaultTtl k =
      some ⟨v, created, defaultTtl⟩ := by
    simp [Cache.set]
  refine ⟨hrow, by simp [Cache.set], ?_⟩
  simp [Cache.get, hrow, not_lt.mpr hnow]

/-- Witness for C10: `set("k", 9, ttl=0)` with default TTL 86400 at
`createdAt = 0`; a read at time 100 returns the value. -/
theorem claim_C10_witness :
    Cache.set (Cache.empty Nat) "k" 9 0 (some 0) 86400 "k" =
      some ⟨9, 0, 86400⟩ ∧
    Cache.set (Cache.empty Nat) "k" 9 0 none 86400 "k" =
      some ⟨9, 0, 86400⟩ ∧
    (Cache.get (Cache.set (Cache.empty Nat) "k" 9 0 (some 0) 86400) "k"
      100).1 = some 9 :=
  claim_C10 (Cache.empty Nat) "k" 9 0 86400 100 (by norm_num)

/-- Helper: unfolding `runCalls` one step (structure eta makes the pair
destructuring definitional). -/
theorem Policy.runCalls_cons {Args : Type} (p : Policy.ToolPolicy Args)
    (st : Policy.PolicyState) (name : String) (args : Args)
    (tl : List (String × Args)) :
    Policy.runCalls p st ((name, args) :: tl) =
      (((Policy.execute_tool p st name args).1,
          (Policy.execute_tool p st name args).2.2) ::
        (Policy.runCalls p (Policy.execute_tool p st name args).2.1 tl).1,
       (Policy.runCalls p (Policy.execute_tool p st name args).2.1 tl).2) :=
  rfl

/-- Helper: `execute_tool` when the tool is registered and budget remains. -/
theorem Policy.execute_tool_invoked {Args : Type} (p : Policy.ToolPolicy Args)
    (st : Policy.PolicyState) (name : String) (args : Args)
    (hmem : name ∈ p.tools)
    (hcc : st.calls_this_turn < p.max_calls_per_turn) :
    Policy.execute_tool p st name args =
      (p.run name args,
        { calls_this_turn := st.calls_this_turn + 1
          total_calls := st.total_calls + 1 }, true) := by
  simp [Policy.execute_tool, Policy.can_call_tool, hmem, hcc]

/-- Helper: `execute_tool` when the tool is registered but the budget is
exhausted. -/
theorem Policy.execute_tool_limit {Args : Type} (p : Policy.ToolPolicy Args)
    (st : Policy.PolicyState) (name : String) (args : Args)
    (hmem : name ∈ p.tools)
    (hcc : ¬ st.calls_this_turn < p.max_calls_per_turn) :
    Policy.execute_tool p st name args =
      (Policy.limitResult p.max_calls_per_turn, st, false) := by
  simp [Policy.execute_tool, Policy.can_call_tool, hmem, hcc]

/-- Helper: `execute_tool` when the tool is not registered. -/
theorem Policy.execute_tool_unknown {Args : Type} (p : Policy.ToolPolicy Args)
    (st : Policy.PolicyState) (name : String) (args : Args)
    (hmem : name ∉ p.tools) :
    Policy.execute_tool p st name args =
      (Policy.unknownToolResult name, st, false) := by
  simp [Policy.execute_tool, hmem]

/-- Helper: the number of underlying tool invocations a call sequence makes is
bounded by the remaining per-turn budget. -/
theorem Policy.invokedCount_le {Args : Type} (p : Policy.ToolPolicy Args) :
    ∀ (calls : List (String × Args)) (st : Policy.PolicyState),
      Policy.invokedCount (Policy.runCalls p st calls).1 ≤
        p.max_calls_per_turn - st.calls_this_turn := by
  intro calls
  induction calls with
  | nil => intro st; simp [Policy.runCalls, Policy.invokedCount]
  | cons hd tl ih =>
      intro st
      obtain ⟨name, args⟩ := hd
      rw [Policy.runCalls_cons]
      by_cases hmem : name ∈ p.tools
      · by_cases hcc : st.calls_this_turn < p.max_calls_per_turn
        · rw [Policy.execute_tool_invoked p st name args hmem hcc]
          have h := ih { calls_this_turn := st.calls_this_turn + 1
                         total_calls := st.total_calls + 1 }
          simp [Policy.invokedCount, List.countP_cons] at h ⊢
          omega
        · rw [Policy.execute_tool_limit p st name args hmem hcc]
          have h := ih st
          simp [Policy.invokedCount, List.countP_cons] at h ⊢
          omega
      · rw [Policy.execute_tool_unknown p st name args hmem]
        have h := ih st
        simp [Policy.invokedCount, List.countP_cons] at h ⊢
        omega

/-- Helper: a call issued when the invocations so far already fill the budget
is refused: the underlying tool is not invoked, and if the named tool is
registered the result is the synthetic limit failure. -/
theorem Policy.refused_after_budget {Args : Type} (p : Policy.ToolPolicy Args) :
    ∀ (calls : List (String × Args)) (st : Policy.PolicyState) (i : Nat)
      (r : Policy.ToolResult × Bool) (c : String × Args),
      ((Policy.runCalls p st calls).1)[i]? = some r →
      calls[i]? = some c →
      p.max_calls_per_turn ≤
        st.calls_this_turn +
          Policy.invokedCount (((Policy.runCalls p st calls).1).take i) →
      r.2 = false ∧
        (c.1 ∈ p.tools →
          r.1.success = false ∧ r.1.error = some "Call limit reached") := by
  intro calls
  induction calls with
  | nil => intro st i r c hr hc _; simp [Policy.runCalls] at hr
  | cons hd tl ih =>
      intro st i r c hr hc hbudget
      obtain ⟨name, args⟩ := hd
      rw [Policy.runCalls_cons] at hr hbudget
      by_cases hmem : name ∈ p.tools
      · by_cases hcc : st.calls_this_turn < p.max_calls_per_turn
        · rw [Policy.execute_tool_invoked p st name args hmem hcc] at hr hbudget
          match i with
          | 0 =>
              simp [Policy.invokedCount] at hbudget
              omega
          | i + 1 =>
              simp only [List.getElem?_cons_succ] at hr hc
              simp [List.take_succ_cons, Policy.invokedCount,
                List.countP_cons] at hbudget
              exact ih { calls_this_turn := st.calls_this_turn + 1
                         total_calls := st.total_calls + 1 } i r c hr hc
                (by simp only [Policy.invokedCount]; omega)
        · rw [Policy.execute_tool_limit p st name args hmem hcc] at hr hbudget
          match i with
          | 0 =>
              simp only [List.getElem?_cons_zero, Option.some.injEq] at hr hc
              subst hr
              subst hc
              exact ⟨rfl, fun _ => ⟨rfl, rfl⟩⟩
          | i + 1 =>
              simp only [List.getElem?_cons_succ] at hr hc
              simp [List.take_succ_cons, Policy.invokedCount,
                List.countP_cons] at hbudget
              exact ih st i r c hr hc
                (by simp only [Policy.invokedCount]; omega)
      · rw [Policy.execute_tool_unknown p st name args hmem] at hr hbudget
        match i with
        | 0 =>
            simp only [List.getElem?_cons_zero, Option.some.injEq] at hr hc
            subst hr
            subst hc
            exact ⟨rfl, fun hmem2 => absurd hmem2 hmem⟩
        | i + 1 =>
            simp only [List.getElem?_cons_succ] at hr hc
            simp [List.take_succ_cons, Policy.invokedCount,
              List.countP_cons] at hbudget
            exact ih st i r c hr hc
              (by simp only [Policy.invokedCount]; omega)

/-- C2: within one turn (the call sequence issued between two `reset_turn`s,
however `AgentLoop._run_turn` drives it), at most `max_calls_per_turn`
underlying tool executions happen; any call issued once the budget is filled
does not invoke its tool, and — when it names a registered tool — returns the
synthetic failed result with error `"Call limit reached"`. -/
theorem claim_C2 {Args : Type} (p : Policy.ToolPolicy Args)
    (st0 : Policy.PolicyState) (calls : List (String × Args)) :
    Policy.invokedCount
        (Policy.runCalls p (Policy.reset_turn st0) calls).1 ≤
      p.max_calls_per_turn ∧
    ∀ (i : Nat) (r : Policy.ToolResult × Bool) (c : String × Args),
      ((Policy.runCalls p (Policy.reset_turn st0) calls).1)[i]? = some r →
      calls[i]? = some c →
      p.max_calls_per_turn ≤
        Policy.invokedCount
          (((Policy.runCalls p (Policy.reset_turn st0) calls).1).take i) →
      r.2 = false ∧
        (c.1 ∈ p.tools →
          r.1.success = false ∧ r.1.error = some "Call limit reached") := by
  constructor
  · have h := Policy.invokedCount_le p calls (Policy.reset_turn st0)
    have h0 : (Policy.reset_turn st0).calls_this_turn = 0 := rfl
    rw [h0] at h
    omega
  · intro i r c hr hc hbudget
    exact Policy.refused_after_budget p calls (Policy.reset_turn st0) i r c hr
      hc (by simpa [Policy.reset_turn] using hbudget)

/-- Witness for C2: a budget of 1 with two calls to the registered tool — the
first executes, the second is refused with `"Call limit reached"`. -/
theorem claim_C2_witness :
    Policy.invokedCount
        (Policy.runCalls Wit.policy1 (Policy.reset_turn ⟨0, 0⟩)
          Wit.calls2).1 ≤ 1 ∧
    ∃ r : Policy.ToolResult × Bool,
      ((Policy.runCalls Wit.policy1 (Policy.reset_turn ⟨0, 0⟩)
          Wit.calls2).1)[1]? = some r ∧
      r.2 = false ∧ r.1.success = false ∧
      r.1.error = some "Call limit reached" := by
  have h := claim_C2 Wit.policy1 ⟨0, 0⟩ Wit.calls2
  refine ⟨h.1, (Policy.limitResult 1, false), by decide, ?_⟩
  have h2 := h.2 1 (Policy.limitResult 1, false) ("t", ()) (by decide)
    (by decide) (by decide)
  exact ⟨h2.1, (h2.2 (by decide)).1, (h2.2 (by decide)).2⟩

/-- Helper: one analysis step appends exactly one token delta. -/
theorem Profit.analyzeStep_token_deltas (env : Profit.OracleEnv)
    (cfg : Profit.OracleConfig) (acc : Profit.ProfitReport × Nat)
    (entry : String × Profit.Change) :
    ((Profit.analyzeStep env cfg acc entry).1).token_deltas =
      acc.1.token_deltas ++ [Profit.mkTokenDelta env cfg entry] := by
  obtain ⟨r, u⟩ := acc
  dsimp only [Profit.analyzeStep]
  split_ifs <;> rfl

/-- Helper: one analysis step adds the entry's quote-failure flag to
`prices_unavailable`. -/
theorem Profit.analyzeStep_snd (env : Profit.OracleEnv)
    (cfg : Profit.OracleConfig) (acc : Profit.ProfitReport × Nat)
    (entry : String × Profit.Change) :
    (Profit.analyzeStep env cfg acc entry).2 =
      acc.2 + (if Profit.entryUnpriced env cfg entry then 1 else 0) := by
  obtain ⟨r, u⟩ := acc
  rfl

/-- Helper: one analysis step clears `all_balances_preserved` exactly for a
non-base entry with negative delta. -/
theorem Profit.analyzeStep_preserved (env : Profit.OracleEnv)
    (cfg : Profit.OracleConfig) (acc : Profit.ProfitReport × Nat)
    (entry : String × Profit.Change) :
    (((Profit.analyzeStep env cfg acc entry).1).all_balances_preserved = true) ↔
      (acc.1.all_balances_preserved = true ∧
        (pyLower entry.1 ≠ pyLower cfg.base_token →
          0 ≤ (Profit.parseChange entry.2).2.2)) := by
  obtain ⟨r, u⟩ := acc
  obtain ⟨token, change⟩ := entry
  have hdelta : (Profit.mkTokenDelta env cfg (token, change)).delta =
      (Profit.parseChange change).2.2 := rfl
  dsimp only [Profit.analyzeStep]
  split_ifs with h1 h2 h3
  · simp [h1]
  · rw [hdelta] at h2
    constructor
    · intro h; exact ⟨h, fun _ => le_of_lt h2⟩
    · intro h; exact h.1
  · rw [hdelta] at h3
    constructor
    · intro h; exact absurd h (by simp)
    · intro h
      exact absurd (h.2 h1) (by omega)
  · rw [hdelta] at h2 h3
    constructor
    · intro h; exact ⟨h, fun _ => by omega⟩
    · intro h; exact h.1

/-- Helper: folding the analysis loop appends one token delta per entry, in
input order. -/
theorem Profit.foldl_token_deltas (env : Profit.OracleEnv)
    (cfg : Profit.OracleConfig) :
    ∀ (cs : List (String × Profit.Change)) (r : Profit.ProfitReport) (u : Nat),
      ((cs.foldl (Profit.analyzeStep env cfg) (r, u)).1).token_deltas =
        r.token_deltas ++ cs.map (Profit.mkTokenDelta env cfg) := by
  intro cs
  induction cs with
  | nil => intro r u; simp
  | cons e tl ih =>
      intro r u
      rw [List.foldl_cons]
      rcases hstep : Profit.analyzeStep env cfg (r, u) e with ⟨r1, u1⟩
      have h1 := Profit.analyzeStep_token_deltas env cfg (r, u) e
      rw [hstep] at h1
      simp only at h1
      rw [ih r1 u1, h1]
      simp

/-- Helper: the folded `prices_unavailable` counter counts quote failures. -/
theorem Profit.foldl_snd (env : Profit.OracleEnv) (cfg : Profit.OracleConfig) :
    ∀ (cs : List (String × Profit.Change)) (r : Profit.ProfitReport) (u : Nat),
      (cs.foldl (Profit.analyzeStep env cfg) (r, u)).2 =
        u + cs.countP (Profit.entryUnpriced env cfg) := by
  intro cs
  induction cs with
  | nil => intro r u; simp
  | cons e tl ih =>
      intro r u
      rw [List.foldl_cons]
      rcases hstep : Profit.analyzeStep env cfg (r, u) e with ⟨r1, u1⟩
      have h1 := Profit.analyzeStep_snd env cfg (r, u) e
      rw [hstep] at h1
      rw [ih r1 u1, List.countP_cons]
      simp only at h1
      by_cases hf : Profit.entryUnpriced env cfg e
      · simp [hf] at h1 ⊢; omega
      · simp [hf] at h1 ⊢; omega

/-- Helper: the folded `all_balances_preserved` flag is the conjunction over
entries of "non-base implies nonnegative delta". -/
theorem Profit.foldl_preserved (env : Profit.OracleEnv)
    (cfg : Profit.OracleConfig) :
    ∀ (cs : List (String × Profit.Change)) (r : Profit.ProfitReport) (u : Nat),
      (((cs.foldl (Profit.analyzeStep env cfg) (r, u)).1).all_balances_preserved
          = true) ↔
        (r.all_balances_preserved = true ∧
          ∀ e ∈ cs, pyLower e.1 ≠ pyLower cfg.base_token →
            0 ≤ (Profit.parseChange e.2).2.2) := by
  intro cs
  induction cs with
  | nil => intro r u; simp
  | cons e tl ih =>
      intro r u
      rw [List.foldl_cons]
      rcases hstep : Profit.analyzeStep env cfg (r, u) e with ⟨r1, u1⟩
      have h1 := Profit.analyzeStep_preserved env cfg (r, u) e
      rw [hstep] at h1
      simp only at h1
      rw [ih r1 u1, h1]
      constructor
      · rintro ⟨⟨ha, hb⟩, hc⟩
        exact ⟨ha, by
          intro x hx
          rcases List.mem_cons.mp hx with hx0 | hx1
          · subst hx0; exact hb
          · exact hc x hx1⟩
      · rintro ⟨ha, hb⟩
        exact ⟨⟨ha, hb e (List.mem_cons_self e tl)⟩,
          fun x hx => hb x (List.mem_cons_of_mem e hx)⟩

/-- Helper: the closing assignments of `analyze` establish the raw/gross/net
identities and the profitability test on the final report. -/
theorem Profit.analyze_final_fields (env : Profit.OracleEnv)
    (cfg : Profit.OracleConfig) (changes : List (String × Profit.Change))
    (bn : Option Int) :
    (Profit.analyze env cfg changes bn).net_profit =
        (Profit.analyze env cfg changes bn).base_token_delta +
          (Profit.analyze env cfg changes bn).surplus_value -
          (Profit.analyze env cfg changes bn).deficit_cost ∧
    (Profit.analyze env cfg changes bn).gross_profit =
        (Profit.analyze env cfg changes bn).base_token_delta +
          (Profit.analyze env cfg changes bn).surplus_value ∧
    (Profit.analyze env cfg changes bn).raw_profit =
        (Profit.analyze env cfg changes bn).base_token_delta ∧
    ((Profit.analyze env cfg changes bn).is_profitable = true ↔
        0 < (Profit.analyze env cfg changes bn).net_profit) := by
  unfold Profit.analyze
  rcases hfold : changes.foldl (Profit.analyzeStep env cfg)
      (Profit.initReport cfg bn, 0) with ⟨r0, u0⟩
  dsimp only
  split_ifs <;>
    exact ⟨rfl, rfl, rfl, by simp [decide_eq_true_eq]⟩

/-- Helper: the final `confidence` equals `1 − unpriced/total` (in `ℚ`, where
division by zero is zero, this also covers the empty input, for which the
dataclass default `1.0` survives). -/
theorem Profit.analyze_confidence (env : Profit.OracleEnv)
    (cfg : Profit.OracleConfig) (changes : List (String × Profit.Change))
    (bn : Option Int) :
    (Profit.analyze env cfg changes bn).confidence =
      1 - (Profit.unpricedCount env cfg changes : ℚ) /
        (changes.length : ℚ) := by
  unfold Profit.analyze
  rcases hfold : changes.foldl (Profit.analyzeStep env cfg)
      (Profit.initReport cfg bn, 0) with ⟨r0, u0⟩
  have hu : u0 = Profit.unpricedCount env cfg changes := by
    have h := Profit.foldl_snd env cfg changes (Profit.initReport cfg bn) 0
    rw [hfold] at h
    simpa [Profit.unpricedCount] using h
  dsimp only
  split_ifs with hlen
  · have hne : (changes.length : ℚ) ≠ 0 :=
      Nat.cast_ne_zero.mpr (Nat.pos_iff_ne_zero.mp hlen)
    rw [hu]
    field_simp
  · have hnil : changes = [] := List.length_eq_zero.mp (by omega)
    subst hnil
    have h0 : r0 = Profit.initReport cfg bn := by
      simpa using congrArg Prod.fst hfold.symm
    subst h0
    simp [Profit.unpricedCount, Profit.initReport]

/-- Helper: the final report's `token_deltas` lists one entry per input token,
in input order. -/
theorem Profit.analyze_token_deltas (env : Profit.OracleEnv)
    (cfg : Profit.OracleConfig) (changes : List (String × Profit.Change))
    (bn : Option Int) :
    (Profit.analyze env cfg changes bn).token_deltas =
      changes.map (Profit.mkTokenDelta env cfg) := by
  unfold Profit.analyze
  rcases hfold : changes.foldl (Profit.analyzeStep env cfg)
      (Profit.initReport cfg bn, 0) with ⟨r0, u0⟩
  have h := Profit.foldl_token_deltas env cfg changes (Profit.initReport cfg bn) 0
  rw [hfold] at h
  simp only [Profit.initReport, List.nil_append] at h
  dsimp only
  split_ifs <;> exact h

/-- Helper: the final report's `all_balances_preserved` flag holds iff every
*non-base* entry has nonnegative delta (`analyze` never clears it on the base
token's own branch). -/
theorem Profit.analyze_preserved (env : Profit.OracleEnv)
    (cfg : Profit.OracleConfig) (changes : List (String × Profit.Change))
    (bn : Option Int) :
    ((Profit.analyze env cfg changes bn).all_balances_preserved = true) ↔
      ∀ e ∈ changes, pyLower e.1 ≠ pyLower cfg.base_token →
        0 ≤ (Profit.parseChange e.2).2.2 := by
  unfold Profit.analyze
  rcases hfold : changes.foldl (Profit.analyzeStep env cfg)
      (Profit.initReport cfg bn, 0) with ⟨r0, u0⟩
  have h := Profit.foldl_preserved env cfg changes (Profit.initReport cfg bn) 0
  rw [hfold] at h
  simp only [Profit.initReport, true_and] at h
  dsimp only
  split_ifs <;> exact h

/-- Helper: a failed exact-in quote values a surplus token at 0. -/
theorem Profit.valueInBase_surplus_fail (env : Profit.OracleEnv)
    (cfg : Profit.OracleConfig) (token : String) (delta : Int)
    (hbase : pyLower token ≠ pyLower cfg.base_token) (hd : 0 < delta)
    (hq : env.getQuote token cfg.base_token delta = none) :
    Profit.valueInBase env cfg token delta = (0, true) := by
  simp [Profit.valueInBase, hbase, hd, hd.ne', hq]

/-- Helper: a failed exact-out quote values a deficit token at `-2^128`. -/
theorem Profit.valueInBase_deficit_fail (env : Profit.OracleEnv)
    (cfg : Profit.OracleConfig) (token : String) (delta : Int)
    (hbase : pyLower token ≠ pyLower cfg.base_token) (hd : delta < 0)
    (hq : env.getQuoteExactOut cfg.base_token token |delta| = none) :
    Profit.valueInBase env cfg token delta = (-(2 ^ 128), true) := by
  have h1 : ¬ delta > 0 := by omega
  have h2 : delta ≠ 0 := by omega
  simp [Profit.valueInBase, hbase, h1, h2, hq]

/-- C1: for every balance-change map, the report satisfies
`net = baseDelta + surplusValue − deficitCost`,
`gross = baseDelta + surplusValue`, `raw = baseDelta`,
`isProfitable ↔ net > 0`, `confidence = 1 − unpriced/total`, the token deltas
follow the input entries, and on a DEX quote failure a surplus token is valued
at 0 while a deficit token is valued at `-2^128`. -/
theorem claim_C1 (env : Profit.OracleEnv) (cfg : Profit.OracleConfig)
    (changes : List (String × Profit.Change)) (bn : Option Int) :
    (Profit.analyze env cfg changes bn).net_profit =
        (Profit.analyze env cfg changes bn).base_token_delta +
          (Profit.analyze env cfg changes bn).surplus_value -
          (Profit.analyze env cfg changes bn).deficit_cost ∧
    (Profit.analyze env cfg changes bn).gross_profit =
        (Profit.analyze env cfg changes bn).base_token_delta +
          (Profit.analyze env cfg changes bn).surplus_value ∧
    (Profit.analyze env cfg changes bn).raw_profit =
        (Profit.analyze env cfg changes bn).base_token_delta ∧
    ((Profit.analyze env cfg changes bn).is_profitable = true ↔
        0 < (Profit.analyze env cfg changes bn).net_profit) ∧
    (Profit.analyze env cfg changes bn).confidence =
        1 - (Profit.unpricedCount env cfg changes : ℚ) /
          (changes.length : ℚ) ∧
    (Profit.analyze env cfg changes bn).token_deltas =
        changes.map (Profit.mkTokenDelta env cfg) ∧
    ∀ (token : String) (delta : Int),
      pyLower token ≠ pyLower cfg.base_token →
      (0 < delta → env.getQuote token cfg.base_token delta = none →
        Profit.valueInBase env cfg token delta = (0, true)) ∧
      (delta < 0 →
        env.getQuoteExactOut cfg.base_token token |delta| = none →
        Profit.valueInBase env cfg token delta = (-(2 ^ 128), true)) := by
  obtain ⟨h1, h2, h3, h4⟩ := Profit.analyze_final_fields env cfg changes bn
  refine ⟨h1, h2, h3, h4, Profit.analyze_confidence env cfg changes bn,
    Profit.analyze_token_deltas env cfg changes bn, ?_⟩
  intro token delta hbase
  exact ⟨fun hd hq => Profit.valueInBase_surplus_fail env cfg token delta
      hbase hd hq,
    fun hd hq => Profit.valueInBase_deficit_fail env cfg token delta
      hbase hd hq⟩

/-- Witness for C1: two unquotable tokens (one surplus, one deficit) yield
confidence `1 − 2/2 = 0`, surplus valued 0, deficit valued `-2^128`. -/
theorem claim_C1_witness :
    (Profit.analyze Wit.profitEnvNoQuote Wit.profitCfg Wit.profitChangesW
        none).confidence = 0 ∧
    Profit.valueInBase Wit.profitEnvNoQuote Wit.profitCfg "0xs" 3 =
        (0, true) ∧
    Profit.valueInBase Wit.profitEnvNoQuote Wit.profitCfg "0xd" (-4) =
        (-(2 ^ 128), true) := by
  have h := claim_C1 Wit.profitEnvNoQuote Wit.profitCfg Wit.profitChangesW none
  refine ⟨?_, ?_, ?_⟩
  · have hc := h.2.2.2.2.1
    have h2 : Profit.unpricedCount Wit.profitEnvNoQuote Wit.profitCfg
        Wit.profitChangesW = 2 := by decide
    have h3 : Wit.profitChangesW.length = 2 := by decide
    rw [hc, h2, h3]
    norm_num
  · exact (h.2.2.2.2.2.2 "0xs" 3 (by decide)).1 (by decide) rfl
  · exact (h.2.2.2.2.2.2 "0xd" (-4) (by decide)).2 (by decide) rfl

/-- C4 counterexample: a balance-change map whose only entry is the *base
token* with delta `-5` leaves `all_balances_preserved = true`, although a
token's delta (the base token's) is negative — the `delta < 0` branch that
clears the flag is only reached for non-base tokens. -/
theorem claim_C4_counterexample :
    Wit.profitChangesBaseNeg = [("0xBASE", Profit.Change.delta (-5))] ∧
    (Profit.analyze Wit.profitEnvNoQuote Wit.profitCfg
        Wit.profitChangesBaseNeg none).all_balances_preserved = true ∧
    (Profit.analyze Wit.profitEnvNoQuote Wit.profitCfg
        Wit.profitChangesBaseNeg none).base_token_delta = -5 ∧
    ((-5 : Int) < 0) := by
  refine ⟨rfl, ?_, ?_, by norm_num⟩
  · rfl
  · rfl

/-- C4 (amended): `all_balances_preserved` is true iff every *non-base*
token's delta is ≥ 0; a negative delta on the base token itself does not clear
the flag. -/
theorem claim_C4_amended (env : Profit.OracleEnv) (cfg : Profit.OracleConfig)
    (changes : List (String × Profit.Change)) (bn : Option Int) :
    ((Profit.analyze env cfg changes bn).all_balances_preserved = true) ↔
      ∀ e ∈ changes, pyLower e.1 ≠ pyLower cfg.base_token →
        0 ≤ (Profit.parseChange e.2).2.2 :=
  Profit.analyze_preserved env cfg changes bn

/-- Witness for the amended C4: a single non-base surplus token keeps the
flag set. -/
theorem claim_C4_witness :
    (Profit.analyze Wit.profitEnvNoQuote Wit.profitCfg
        [("0xt", Profit.Change.delta 1)] none).all_balances_preserved =
      true := by
  exact (claim_C4_amended Wit.profitEnvNoQuote Wit.profitCfg
    [("0xt", Profit.Change.delta 1)] none).mpr (by decide)

/-- Helper: every element of the list is at most as long as Python
`max(list, key=len)`. -/
theorem Parser.pyMax_le (x : String) (xs : List String) :
    ∀ c ∈ x :: xs, c.length ≤ (Parser.pyMax x xs).length := by
  induction xs generalizing x with
  | nil =>
      intro c hc
      simp only [List.mem_singleton] at hc
      simp [hc, Parser.pyMax]
  | cons y ys ih =>
      intro c hc
      have hstep : Parser.pyMax x (y :: ys) =
          Parser.pyMax (if y.length > x.length then y else x) ys := rfl
      rw [hstep]
      have hhead : x.length ≤ (if y.length > x.length then y else x).length ∧
          y.length ≤ (if y.length > x.length then y else x).length := by
        split_ifs with h
        · exact ⟨le_of_lt h, le_refl _⟩
        · exact ⟨le_refl _, le_of_not_lt h⟩
      have hmax := ih (if y.length > x.length then y else x)
      rcases List.mem_cons.mp hc with hx | hyc
      · subst hx
        exact le_trans hhead.1 (hmax _ (List.mem_cons_self _ _))
      · rcases List.mem_cons.mp hyc with hy | hys
        · subst hy
          exact le_trans hhead.2 (hmax _ (List.mem_cons_self _ _))
        · exact hmax c (List.mem_cons_of_mem _ hys)

/-- Helper: Python `max(list, key=len)` is the *first* element of maximal
length: the list splits as `l1 ++ max :: l2` with every element of `l1`
strictly shorter. -/
theorem Parser.pyMax_decomp (x : String) (xs : List String) :
    ∃ l1 l2, x :: xs = l1 ++ (Parser.pyMax x xs) :: l2 ∧
      ∀ c ∈ l1, c.length < (Parser.pyMax x xs).length := by
  induction xs generalizing x with
  | nil => exact ⟨[], [], rfl, by simp⟩
  | cons y ys ih =>
      by_cases h : y.length > x.length
      · have hstep : Parser.pyMax x (y :: ys) = Parser.pyMax y ys := by
          simp [Parser.pyMax, h]
        obtain ⟨l1, l2, heq, hlt⟩ := ih y
        refine ⟨x :: l1, l2, ?_, ?_⟩
        · rw [hstep, List.cons_append, ← heq]
        · intro c hc
          rw [hstep]
          rcases List.mem_cons.mp hc with hx | hc1
          · subst hx
            exact lt_of_lt_of_le h
              (Parser.pyMax_le y ys y (List.mem_cons_self _ _))
          · exact hlt c hc1
      · have hstep : Parser.pyMax x (y :: ys) = Parser.pyMax x ys := by
          simp [Parser.pyMax, h]
        obtain ⟨l1, l2, heq, hlt⟩ := ih x
        cases l1 with
        | nil =>
            simp only [List.nil_append] at heq
            have hx : Parser.pyMax x ys = x := by
              have := congrArg (fun l => l.head?) heq
              simpa using this.symm
            refine ⟨[], y :: ys, ?_, by simp⟩
            rw [hstep, hx]
            simp
        | cons a l1' =>
            have ha : x = a ∧ ys = l1' ++ Parser.pyMax x ys :: l2 := by
              simpa only [List.cons_append, List.cons.injEq] using heq
            refine ⟨x :: y :: l1', l2, ?_, ?_⟩
            · rw [hstep]
              simp only [List.cons_append]
              rw [← ha.2]
            · intro c hc
              rw [hstep]
              have hxlt : x.length < (Parser.pyMax x ys).length := by
                have := hlt a (List.mem_cons_self _ _)
                rwa [← ha.1] at this
              rcases List.mem_cons.mp hc with hcx | hc1
              · subst hcx; exact hxlt
              · rcases List.mem_cons.mp hc1 with hcy | hc2
                · subst hcy
                  exact lt_of_le_of_lt (le_of_not_lt h) hxlt
                · exact hlt c (List.mem_cons_of_mem _ hc2)

/-- C6 counterexample: two `solidity` blocks of equal capture length — the
parser returns the *first* (`AAA`), not the last-occurring one as claimed
(Python `max(matches, key=len)` keeps the first maximum). -/
theorem claim_C6_counterexample :
    Parser.findBlocks Wit.tieResponse = ["AAA\n", "BBB\n"] ∧
    ("AAA\n" : String).length = ("BBB\n" : String).length ∧
    Parser.selectCode Wit.tieResponse = some "AAA" ∧
    ("AAA" : String) ≠ "BBB" := by
  refine ⟨by decide, by decide, by decide, by decide⟩

/-- C6 (amended): the parser selects the block of maximum capture length, and
when several blocks tie for maximum length it selects the *first*-occurring
one (then strips surrounding whitespace). -/
theorem claim_C6_amended (response code : String)
    (h : Parser.selectCode response = some code) :
    ∃ b l1 l2, Parser.findBlocks response = l1 ++ b :: l2 ∧
      code = Parser.pyStrip b ∧
      (∀ c ∈ l1, c.length < b.length) ∧
      (∀ c ∈ l2, c.length ≤ b.length) := by
  unfold Parser.selectCode at h
  cases hfb : Parser.findBlocks response with
  | nil => rw [hfb] at h; exact absurd h (by simp)
  | cons x xs =>
      rw [hfb] at h
      simp only [Option.some.injEq] at h
      obtain ⟨l1, l2, heq, hlt⟩ := Parser.pyMax_decomp x xs
      refine ⟨Parser.pyMax x xs, l1, l2, heq, h.symm, hlt, ?_⟩
      intro c hc
      have hmem : c ∈ x :: xs := by
        rw [heq]
        exact List.mem_append_right l1 (List.mem_cons_of_mem _ hc)
      exact Parser.pyMax_le x xs c hmem

/-- Witness for the amended C6 at a single-block response. -/
theorem claim_C6_witness :
    ∃ b l1 l2, Parser.findBlocks Wit.simpleResponse = l1 ++ b :: l2 ∧
      "code" = Parser.pyStrip b ∧
      (∀ c ∈ l1, c.length < b.length) ∧
      (∀ c ∈ l2, c.length ≤ b.length) :=
  claim_C6_amended Wit.simpleResponse "code" (by decide)

/-- C7: the parser comment says "If no Strategy found, use the last contract",
but the overwrite triggers whenever the chosen name equals the *default*
`"Strategy"` — which is also the name chosen when a contract literally named
`Strategy` was found.  On a block declaring `Strategy` first and `Helper`
last, the reported contract name is `Helper`. -/
theorem claim_C7 :
    Parser.findContracts Wit.strategyNotLastCode = ["Strategy", "Helper"] ∧
    Parser.selectContractName Wit.strategyNotLastCode = "Helper" ∧
    ("Helper" : String) ≠ "Strategy" := by
  refine ⟨by decide, by decide, by decide⟩

/-- C5 counterexample: `addrA`'s EIP-1967 implementation slot holds the
nonzero `addrY` and its admin slot holds the nonzero `addrB`, yet the resolver
(with its default nested resolution) reports implementation `addrZ` — the
deepest of the proxy chain — because `addrY` is itself a proxy.  Kind, admin,
method and confidence are as the claim states. -/
theorem claim_C5_counterexample :
    Resolver.read_storage_slot Wit.resolverEnvNested Wit.addrA
        Resolver.EIP1967_IMPL_SLOT = some Wit.addrY ∧
    Wit.addrY ≠ Resolver.zeroAddress ∧
    Resolver.read_storage_slot Wit.resolverEnvNested Wit.addrA
        Resolver.EIP1967_ADMIN_SLOT = some Wit.addrB ∧
    Wit.addrB ≠ Resolver.zeroAddress ∧
    Resolver.resolveDefault Wit.resolverEnvNested Wit.addrA = some
      { address := Wit.addrA
        proxy_type := Resolver.ProxyType.EIP1967_TRANSPARENT
        implementation_address := some Wit.addrZ
        beacon_address := none
        admin_address := some Wit.addrB
        nested_implementations := [Wit.addrY]
        detection_method := "EIP-1967 implementation slot"
        confidence := 1 } ∧
    Wit.addrZ ≠ Wit.addrY := by
  exact ⟨by decide, by decide, by decide, by decide, by decide, by decide⟩

/-- Helper: one-step unfolding of `Resolver.resolve` at positive depth. -/
theorem Resolver.resolve_succ (env : Resolver.ResolverEnv) (d : Nat)
    (address : String) (nested : Bool) :
    Resolver.resolve env (d + 1) address nested =
      match env.checksum address with
      | none => none
      | some addr =>
          let info := Resolver.detect env addr
          match info.implementation_address with
          | some impl =>
              if nested ∧ impl ≠ "" then
                match Resolver.resolve env d impl true with
                | none => none
                | some nested_info =>
                    if nested_info.proxy_type ≠ Resolver.ProxyType.NONE then
                      let info2 := { info with nested_implementations :=
                        info.nested_implementations ++ [impl] }
                      let info3 :=
                        match nested_info.implementation_address with
                        | some ni2 =>
                            if ni2 ≠ "" then
                              { info2 with
                                  nested_implementations :=
                                    info2.nested_implementations ++
                                      nested_info.nested_implementations
                                  implementation_address := some ni2 }
                            else info2
                        | none => info2
                      some info3
                    else some info
              else some info
          | none => some info := rfl

/-- C5 (amended): when the implementation slot holds a nonzero address `A`,
the admin slot a nonzero address `B`, and `A` is not itself detected as a
proxy, the resolver returns kind `eip1967_transparent`, implementation `A`,
admin `B`, method `"EIP-1967 implementation slot"` and confidence 1.0 (if `A`
is itself a proxy, nested resolution replaces the implementation by the
deepest one). -/
theorem claim_C5_amended (env : Resolver.ResolverEnv) (address a A B : String)
    (hchk : env.checksum address = some a)
    (himpl : Resolver.read_storage_slot env a Resolver.EIP1967_IMPL_SLOT =
      some A)
    (hA1 : A ≠ "") (hA2 : A ≠ Resolver.zeroAddress)
    (hadmin : Resolver.read_storage_slot env a Resolver.EIP1967_ADMIN_SLOT =
      some B)
    (hB1 : B ≠ "") (hB2 : B ≠ Resolver.zeroAddress)
    (ni : Resolver.ProxyInfo)
    (hni : Resolver.resolve env 4 A true = some ni)
    (hnone : ni.proxy_type = Resolver.ProxyType.NONE) :
    Resolver.resolveDefault env address = some
      { address := a
        proxy_type := Resolver.ProxyType.EIP1967_TRANSPARENT
        implementation_address := some A
        beacon_address := none
        admin_address := some B
        nested_implementations := []
        detection_method := "EIP-1967 implementation slot"
        confidence := 1 } := by
  have h1967 : Resolver.try_eip1967 env a =
      { address := a
        proxy_type := Resolver.ProxyType.EIP1967_TRANSPARENT
        implementation_address := some A
        beacon_address := none
        admin_address := some B
        nested_implementations := []
        detection_method := "EIP-1967 implementation slot"
        confidence := 1 } := by
    unfold Resolver.try_eip1967
    rw [himpl]
    dsimp only
    rw [if_pos ⟨hA1, hA2⟩, hadmin]
    dsimp only
    rw [if_pos ⟨hB1, hB2⟩]
    rfl
  have hdet : Resolver.detect env a =
      { address := a
        proxy_type := Resolver.ProxyType.EIP1967_TRANSPARENT
        implementation_address := some A
        beacon_address := none
        admin_address := some B
        nested_implementations := []
        detection_method := "EIP-1967 implementation slot"
        confidence := 1 } := by
    unfold Resolver.detect
    rw [h1967]
    rfl
  have h5 := Resolver.resolve_succ env 4 address true
  rw [show (4 : Nat) + 1 = 5 from rfl] at h5
  unfold Resolver.resolveDefault
  rw [h5, hchk]
  dsimp only
  rw [hdet]
  dsimp only
  rw [if_pos ⟨rfl, hA1⟩, hni]
  dsimp only
  rw [if_neg (show ¬ ni.proxy_type ≠ Resolver.ProxyType.NONE by
    simp [hnone])]

/-- Witness for the amended C5: a one-level EIP-1967 transparent proxy. -/
theorem claim_C5_witness :
    Resolver.resolveDefault Wit.resolverEnvSingle Wit.addrA = some
      { address := Wit.addrA
        proxy_type := Resolver.ProxyType.EIP1967_TRANSPARENT
        implementation_address := some Wit.addrY
        beacon_address := none
        admin_address := some Wit.addrB
        nested_implementations := []
        detection_method := "EIP-1967 implementation slot"
        confidence := 1 } := by
  exact claim_C5_amended Wit.resolverEnvSingle Wit.addrA Wit.addrA Wit.addrY
    Wit.addrB rfl (by decide) (by decide) (by decide) (by decide) (by decide)
    (by decide) (Resolver.noneInfo Wit.addrY) (by decide) rfl

/-- C8 counterexample: the executor's stable error strings are
`"forge-std not found"` and `"Timeout"`, not the claimed identifiers
`lib_missing` / `timeout`. -/
theorem claim_C8_counterexample :
    (Exec.execute Wit.execEnvNoLib Wit.parseStub).error =
        some "forge-std not found" ∧
    ("forge-std not found" : String) ≠ "lib_missing" ∧
    (Exec.execute Wit.execEnvTimeout Wit.parseStub).error = some "Timeout" ∧
    ("Timeout" : String) ≠ "timeout" := by
  exact ⟨rfl, by decide, rfl, by decide⟩

/-- C8 (amended): the failure modes map to these error strings — the test
library missing yields `error = "forge-std not found"`; the wall-clock timeout
(after `process.kill()`) yields `error = "Timeout"`; a missing runner binary
propagates the OS exception message as the error. -/
theorem claim_C8_amended (env : Exec.ExecEnv)
    (parse_result : Int → String → String → Policy.ToolResult) :
    (env.libExists = false →
      (Exec.execute env parse_result).success = false ∧
      (Exec.execute env parse_result).error = some "forge-std not found") ∧
    (env.spawn = Exec.SpawnOutcome.timeout → env.libExists = true →
      (Exec.execute env parse_result).success = false ∧
      (Exec.execute env parse_result).error = some "Timeout") ∧
    (∀ msg, env.spawn = Exec.SpawnOutcome.binMissing msg →
      env.libExists = true →
      (Exec.execute env parse_result).success = false ∧
      (Exec.execute env parse_result).error = some msg) := by
  refine ⟨?_, ?_, ?_⟩
  · intro h
    simp [Exec.execute, Exec.run_forge, h, Exec.libMissingResult]
  · intro hs hl
    simp [Exec.execute, Exec.run_forge, hs, hl]
  · intro msg hs hl
    simp [Exec.execute, Exec.run_forge, hs, hl]

/-- Witness for the amended C8 at the three concrete environments. -/
theorem claim_C8_witness :
    ((Exec.execute Wit.execEnvNoLib Wit.parseStub).success = false ∧
      (Exec.execute Wit.execEnvNoLib Wit.parseStub).error =
        some "forge-std not found") ∧
    ((Exec.execute Wit.execEnvTimeout Wit.parseStub).success = false ∧
      (Exec.execute Wit.execEnvTimeout Wit.parseStub).error =
        some "Timeout") ∧
    ((Exec.execute Wit.execEnvBinMissing Wit.parseStub).success = false ∧
      (Exec.execute Wit.execEnvBinMissing Wit.parseStub).error =
        some "No such file or directory: \x27forge\x27") := by
  exact ⟨(claim_C8_amended Wit.execEnvNoLib Wit.parseStub).1 rfl,
    (claim_C8_amended Wit.execEnvTimeout Wit.parseStub).2.1 rfl rfl,
    (claim_C8_amended Wit.execEnvBinMissing Wit.parseStub).2.2 _ rfl rfl⟩

/-- Helper: `0x` + 40 hex digits is a valid `to_checksum_address` input. -/
theorem Ctor.isValidAddrHex_append (t : List Char) (hlen : t.length = 40)
    (hhex : t.all Ctor.isHexDigit = true) :
    Ctor.isValidAddrHex ("0x" ++ t.asString) = true := by
  have hdata : ("0x" ++ t.asString).data.drop 2 = t := by
    rw [String.data_append]
    rfl
  unfold Ctor.isValidAddrHex
  rw [Bool.and_eq_true, Bool.and_eq_true]
  refine ⟨⟨?_, ?_⟩, ?_⟩
  · unfold pyStartsWith
    rw [String.data_append, List.isPrefixOf_iff_prefix]
    exact List.prefix_append _ _
  · rw [decide_eq_true_eq, String.length_append]
    have hl : (t.asString).length = t.length := rfl
    rw [hl, hlen]
    decide
  · rw [hdata]
    exact hhex

/-- Helper: on a hex word with 24 leading zeros and a nonzero tail,
`_identify_chunk` classifies `address`. -/
theorem Ctor.identify_chunk_addr (csum : String → Option String)
    (hcs : ∀ s, (csum s).isSome = Ctor.isValidAddrHex s)
    (chunk : List Char) (i : Nat) (hlen : chunk.length = 64)
    (hhex : chunk.all Ctor.isHexDigit = true)
    (hg : chunk.take 24 = Ctor.zeros 24 ∧ chunk.drop 24 ≠ Ctor.zeros 40) :
    (Ctor.identify_chunk csum chunk i).type = "address" := by
  have hdl : (chunk.drop 24).length = 40 := by
    rw [List.length_drop, hlen]
  have hdh : (chunk.drop 24).all Ctor.isHexDigit = true := by
    rw [List.all_eq_true]
    intro c hc
    exact List.all_eq_true.mp hhex c
      (List.Sublist.mem hc (List.drop_sublist _ _))
  have hsome : (csum ("0x" ++ (chunk.drop 24).asString)).isSome = true := by
    rw [hcs]
    exact Ctor.isValidAddrHex_append (chunk.drop 24) hdl hdh
  obtain ⟨addr, haddr⟩ := Option.isSome_iff_exists.mp hsome
  have hne2 : ("0x" ++ (chunk.drop 24).asString) ≠
      "0x" ++ (Ctor.zeros 40).asString := by
    intro heq
    apply hg.2
    have hdata := congrArg String.data heq
    rw [String.data_append, String.data_append] at hdata
    have h2 : (chunk.drop 24).asString.data = (Ctor.zeros 40).asString.data :=
      List.append_cancel_left hdata
    exact h2
  unfold Ctor.identify_chunk
  dsimp only
  rw [if_pos hg.1, if_pos hne2, haddr]

/-- Helper: when the address rule does not fire, a hex word is classified by
the `int(chunk, 16)` cascade. -/
theorem Ctor.identify_chunk_not_addr (csum : String → Option String)
    (chunk : List Char) (i : Nat) (hne : chunk ≠ [])
    (hhex : chunk.all Ctor.isHexDigit = true)
    (hg : ¬(chunk.take 24 = Ctor.zeros 24 ∧ chunk.drop 24 ≠ Ctor.zeros 40)) :
    Ctor.identify_chunk csum chunk i =
      (if Ctor.hexValue chunk = 0 then
        { name := "value_" ++ toString i, type := "uint256",
          value := .int 0, raw_value := "0x" ++ chunk.asString }
      else if Ctor.hexValue chunk = 1 then
        { name := "bool_" ++ toString i, type := "bool",
          value := .bool true, raw_value := "0x" ++ chunk.asString }
      else if Ctor.hexValue chunk < 256 then
        { name := "uint8_" ++ toString i, type := "uint8",
          value := .int (Ctor.hexValue chunk),
          raw_value := "0x" ++ chunk.asString }
      else if Ctor.hexValue chunk < 10001 then
        { name := "bps_" ++ toString i, type := "uint256",
          value := .int (Ctor.hexValue chunk),
          raw_value := "0x" ++ chunk.asString }
      else
        { name := "uint256_" ++ toString i, type := "uint256",
          value := .int (Ctor.hexValue chunk),
          raw_value := "0x" ++ chunk.asString }) := by
  have hint : Ctor.pyIntHex chunk = some (Ctor.hexValue chunk) := by
    unfold Ctor.pyIntHex
    rw [if_pos ⟨hne, hhex⟩]
  unfold Ctor.identify_chunk
  dsimp only
  by_cases h24 : chunk.take 24 = Ctor.zeros 24
  · have hdz : chunk.drop 24 = Ctor.zeros 40 := by
      by_contra hcon
      exact hg ⟨h24, hcon⟩
    rw [if_pos h24, hdz,
      if_neg (show ¬("0x" ++ (Ctor.zeros 40).asString ≠
        "0x" ++ (Ctor.zeros 40).asString) from fun h => h rfl), hint]
  · rw [if_neg h24, hint]

/-- C9: the heuristic decoder splits the (0x-stripped) blob into 32-byte
words, appends one decoded parameter per word, and classifies each hex word
exactly by the specification's ordered cascade (`claimClassifyType`), with a
zero word valued `uint256 0`; words that are not pure hex fall back to
`bytes32`. -/
theorem claim_C9 (csum : String → Option String)
    (hcs : ∀ s, (csum s).isSome = Ctor.isValidAddrHex s)
    (info : Ctor.HeuristicInfo) (hne : info.constructor_args_raw ≠ "") :
    (Ctor.decode_heuristic csum info).parameters =
      info.parameters ++
        (Ctor.chunksOf64 (Ctor.stripArgs info).data).mapIdx
          (fun i c => Ctor.identify_chunk csum (Ctor.pad64 c) i) ∧
    (∀ (chunk : List Char) (i : Nat), chunk.length = 64 →
      chunk.all Ctor.isHexDigit = true →
      (Ctor.identify_chunk csum chunk i).type = Ctor.claimClassifyType chunk ∧
      (¬(chunk.take 24 = Ctor.zeros 24 ∧ chunk.drop 24 ≠ Ctor.zeros 40) →
        Ctor.hexValue chunk = 0 →
        (Ctor.identify_chunk csum chunk i).value = Ctor.ParamValue.int 0)) ∧
    (∀ (chunk : List Char) (i : Nat), chunk.length = 64 →
      chunk.all Ctor.isHexDigit = false →
      (Ctor.identify_chunk csum chunk i).type = "bytes32") := by
  refine ⟨?_, ?_, ?_⟩
  · unfold Ctor.decode_heuristic
    rw [if_neg hne]
  · intro chunk i hlen hhex
    have hnil : chunk ≠ [] := by
      intro h
      rw [h] at hlen
      simp at hlen
    by_cases hg : chunk.take 24 = Ctor.zeros 24 ∧
        chunk.drop 24 ≠ Ctor.zeros 40
    · constructor
      · rw [Ctor.identify_chunk_addr csum hcs chunk i hlen hhex hg]
        unfold Ctor.claimClassifyType
        rw [if_pos hg]
      · intro hng
        exact absurd hg hng
    · rw [Ctor.identify_chunk_not_addr csum chunk i hnil hhex hg]
      unfold Ctor.claimClassifyType
      rw [if_neg hg]
      constructor
      · split_ifs <;> rfl
      · intro _ hv0
        rw [if_pos hv0]
  · intro chunk i hlen hhexf
    have hnil : chunk ≠ [] := by
      intro h
      rw [h] at hlen
      simp at hlen
    have hint : Ctor.pyIntHex chunk = none := by
      unfold Ctor.pyIntHex
      rw [if_neg]
      intro hcon
      rw [hhexf] at hcon
      exact absurd hcon.2 (by simp)
    unfold Ctor.identify_chunk
    dsimp only
    by_cases h24 : chunk.take 24 = Ctor.zeros 24
    · have hdh : (chunk.drop 24).all Ctor.isHexDigit = false := by
        by_contra hcon
        rw [Bool.not_eq_false] at hcon
        have hall : chunk.all Ctor.isHexDigit = true := by
          have hsplit := List.take_append_drop 24 chunk
          rw [← hsplit, List.all_append, h24, hcon]
          decide
        rw [hall] at hhexf
        exact absurd hhexf (by simp)
      by_cases htail : chunk.drop 24 = Ctor.zeros 40
      · rw [htail] at hdh
        exact absurd hdh (by decide)
      · have hdata : ("0x" ++ (chunk.drop 24).asString).data.drop 2 =
            chunk.drop 24 := by
          rw [String.data_append]
          rfl
        have hvf : Ctor.isValidAddrHex
            ("0x" ++ (chunk.drop 24).asString) = false := by
          unfold Ctor.isValidAddrHex
          rw [hdata, hdh]
          simp
        have hcsum : csum ("0x" ++ (chunk.drop 24).asString) = none := by
          have hx := hcs ("0x" ++ (chunk.drop 24).asString)
          rw [hvf] at hx
          exact Option.not_isSome_iff_eq_none.mp (by simp [hx])
        rw [if_pos h24,
          if_pos (show ("0x" ++ (chunk.drop 24).asString) ≠
            "0x" ++ (Ctor.zeros 40).asString from by
              intro heq
              apply htail
              have hd := congrArg String.data heq
              rw [String.data_append, String.data_append] at hd
              exact List.append_cancel_left hd),
          hcsum, hint]
    · rw [if_neg h24, hint]

/-- Helper: the witness checksum oracle succeeds exactly on valid hex
addresses. -/
theorem Wit.csumHex_spec :
    ∀ s, (Wit.csumHex s).isSome = Ctor.isValidAddrHex s := by
  intro s
  unfold Wit.csumHex
  split_ifs with h
  · simp [h]
  · rw [Bool.not_eq_true] at h
    simp [h]

/-- Witness for C9 on a concrete two-word blob plus concrete words of each
classification family. -/
theorem claim_C9_witness :
    (Ctor.decode_heuristic Wit.csumHex Wit.ctorInfo).parameters =
      Wit.ctorInfo.parameters ++
        (Ctor.chunksOf64 (Ctor.stripArgs Wit.ctorInfo).data).mapIdx
          (fun i c => Ctor.identify_chunk Wit.csumHex (Ctor.pad64 c) i) ∧
    (Ctor.identify_chunk Wit.csumHex Wit.chunkAddr 0).type = "address" ∧
    (Ctor.identify_chunk Wit.csumHex Wit.chunkZero 1).value =
      Ctor.ParamValue.int 0 ∧
    (Ctor.identify_chunk Wit.csumHex Wit.chunkBad 0).type = "bytes32" := by
  have h := claim_C9 Wit.csumHex Wit.csumHex_spec Wit.ctorInfo (by decide)
  refine ⟨h.1, ?_, ?_, ?_⟩
  · have h2 := (h.2.1 Wit.chunkAddr 0 (by decide) (by decide)).1
    rw [h2]
    decide
  · exact (h.2.1 Wit.chunkZero 1 (by decide) (by decide)).2 (by decide)
      (by decide)
  · exact h.2.2 Wit.chunkBad 0 (by decide) (by decide)

end A1
